import Mathlib

/-!
Verification development for the Abokiv2sol order-lifecycle core.

Shallow embedding of `src/services/orderManger.ts` (class `OrderManager`) and
`src/services/jupiterService.ts` (class `JupiterService`, provided as
`src/unnamed/part_000`), over the data model of `src/types/index.ts`.

Modelling conventions:
* JavaScript numbers holding smallest-unit token amounts are modelled as `Int`
  (all amount arithmetic in the source is integral); the one fractional
  computation, the protocol fee `(inputAmount * protocolFeeBps) / 10000`,
  is modelled exactly as a rational (`ℚ`) since JS `/` does not truncate.
* `parseInt` may yield `NaN`; a JS number that can be `NaN` is modelled as
  `Option Int` (`none` = `NaN`).
* Asynchronous external calls (HTTP fetch, RPC, wallet signing) are modelled
  as fields of an environment record returning `Except String α`
  (`.error` = the awaited promise rejected / the call threw).
* A thrown JS exception is `Except.error` (or, for `OrderManager` methods that
  both mutate state and throw, a `some errorMessage` component beside the
  post-state).
* The `Map<string, Order>` store is an association list with JS `Map`
  semantics: `set` replaces in place, else appends; iteration order is
  insertion order.
* `localStorage` is modelled by a `mirror` field holding the decoded content
  of the persisted blob; JSON serialization of these field types is lossless,
  so the blob is identified with the entry list it encodes.
-/

namespace Aboki

/-! ## JavaScript primitives -/

/-- A JS number that may be `NaN` (e.g. the result of `parseInt`). -/
abbrev JSNum := Option Int

/-- JS `x || default` on an optional string: `undefined` and `""` are falsy. -/
def jsOrStr (x : Option String) (d : String) : String :=
  match x with
  | some s => if s = "" then d else s
  | none => d

/-- Decimal digit character for `k < 10` (model of JS number-to-string digits). -/
def digitChar (k : Nat) : Char :=
  match k with
  | 0 => '0' | 1 => '1' | 2 => '2' | 3 => '3' | 4 => '4'
  | 5 => '5' | 6 => '6' | 7 => '7' | 8 => '8' | _ => '9'

/-- Numeric value of a digit character. -/
def dval (c : Char) : Nat := c.toNat - 48

/-- Value of a digit string read left to right. -/
def valD (l : List Char) : Nat := l.foldl (fun a c => a * 10 + dval c) 0

/-- Fuel-indexed decimal rendering of a natural number (most significant first). -/
def natDigitsAux : Nat → Nat → List Char → List Char
  | 0, _, acc => acc
  | fuel + 1, n, acc =>
    if n < 10 then digitChar (n % 10) :: acc
    else natDigitsAux fuel (n / 10) (digitChar (n % 10) :: acc)

/-- The decimal digits of `n` (model of JS `String(n)` for a non-negative int). -/
def natDigits (n : Nat) : List Char := natDigitsAux (n + 1) n []

/-- Model of JS `String(n)` / template interpolation of a non-negative number. -/
def natToString (n : Nat) : String := String.mk (natDigits n)

/-- `padStart(4, '0')` on a character list. -/
def padChars (l : List Char) : List Char := List.replicate (4 - l.length) '0' ++ l

/-- JS `s.padStart(4, '0')`. -/
def padStart4 (s : String) : String := String.mk (padChars s.toList)

/-- Value of the maximal digit prefix, `none` when the first char is not a digit
(the `NaN` case of JS `parseInt`). -/
def parseDigitsVal (l : List Char) : Option Nat :=
  match l with
  | [] => none
  | c :: _ => if c.isDigit then some (valD (l.takeWhile Char.isDigit)) else none

/-- Model of JS `parseInt(s)` (base 10): optional sign then a maximal digit
prefix; `none` is `NaN`. -/
def jsParseInt (s : String) : JSNum :=
  match s.toList with
  | [] => none
  | c :: rest =>
    if c = '-' then (parseDigitsVal rest).map (fun n => -(n : Int))
    else if c = '+' then (parseDigitsVal rest).map (fun n => (n : Int))
    else (parseDigitsVal (c :: rest)).map (fun n => (n : Int))

/-- JS `split('_')` on a character list. -/
def splitUC : List Char → List (List Char)
  | [] => [[]]
  | c :: rest =>
    if c = '_' then [] :: splitUC rest
    else
      match splitUC rest with
      | [] => [[c]]
      | g :: gs => (c :: g) :: gs

/-- JS `s.split('_')`. -/
def splitUnderscore (s : String) : List String := (splitUC s.toList).map String.mk

/-! ## Data model (`src/types/index.ts`) -/

/-- `OrderStatus` enum. -/
inductive OrderStatus where
  | pending | fulfilled | failed | refunded | cancelled
  deriving DecidableEq, Repr

/-- The string value carried by each `OrderStatus` enum member (used in
template-literal error messages). -/
def OrderStatus.toText : OrderStatus → String
  | .pending => "pending"
  | .fulfilled => "fulfilled"
  | .failed => "failed"
  | .refunded => "refunded"
  | .cancelled => "cancelled"

/-- `RouteStep.swapInfo`. -/
structure SwapInfo where
  ammKey : String
  label : String
  inputMint : String
  outputMint : String
  inAmount : String
  outAmount : String
  feeAmount : String
  feeMint : String
  deriving DecidableEq, Repr

/-- `RouteStep` of a Jupiter quote. -/
structure RouteStep where
  swapInfo : SwapInfo
  percent : Int
  deriving DecidableEq, Repr

/-- `JupiterQuote` (the validated quote payload). -/
structure JupiterQuote where
  inputMint : String
  inAmount : String
  outputMint : String
  outAmount : String
  otherAmountThreshold : String
  swapMode : String
  slippageBps : Nat
  priceImpactPct : String
  routePlan : List RouteStep
  contextSlot : Nat
  timeTaken : Nat
  deriving DecidableEq, Repr

/-- `SwapTransaction` (only the fields the embedded code reads: the base64
payload and the last valid block height). -/
structure SwapTransaction where
  swapTransaction : String
  lastValidBlockHeight : Nat
  deriving DecidableEq, Repr

/-- Flattened `priorityLevelWithMaxLamports` priority-fee configuration. -/
structure PriorityFeeCfg where
  maxLamports : Nat
  priorityLevel : String
  global : Bool
  deriving DecidableEq, Repr

/-- The JSON body posted to the Jupiter `/swap` endpoint. -/
structure SwapRequest where
  quoteResponse : JupiterQuote
  userPublicKey : String
  dynamicComputeUnitLimit : Bool
  dynamicSlippage : Bool
  prioritizationFeeLamports : PriorityFeeCfg
  feeAccount : Option String
  destinationTokenAccount : Option String
  deriving DecidableEq, Repr

/-- Options of `createSwapTransaction`. -/
structure SwapOptions where
  feeAccount : Option String := none
  destinationTokenAccount : Option String := none
  priorityFeeConfig : Option PriorityFeeCfg := none
  dynamicSlippage : Option Bool := none
  dynamicComputeUnitLimit : Option Bool := none
  deriving DecidableEq, Repr

/-- `TransactionResult` (with the optional `outputAmount` extension of
`executeOrderSwap`). -/
structure TransactionResult where
  signature : String
  success : Bool
  error : Option String
  outputAmount : Option String
  deriving DecidableEq, Repr

/-- A deserialized `VersionedTransaction` (only the field the code reads). -/
structure DecodedTx where
  recentBlockhash : String
  deriving DecidableEq, Repr

/-- A wallet-signed transaction (opaque payload). -/
structure SignedTx where
  raw : String
  deriving DecidableEq, Repr

/-- RPC confirmation response: `confirmation.value.err` (the on-chain error,
modelled as its JSON rendering). -/
structure ConfirmResult where
  err : Option String
  deriving DecidableEq, Repr

/-- `Order` record. -/
structure Order where
  id : String
  inputToken : String
  outputToken : String
  inputAmount : Int
  expectedOutputAmount : JSNum
  actualOutputAmount : Option JSNum
  rate : String
  creator : String
  refundAddress : String
  liquidityProvider : String
  status : OrderStatus
  timestamp : Nat
  quote : JupiterQuote
  transactionSignature : Option String
  errorMessage : Option String
  protocolFee : ℚ
  priceImpact : String
  deriving DecidableEq, Repr

/-- `OrderCreationParams`. -/
structure OrderCreationParams where
  inputToken : String
  outputToken : String
  inputAmount : Int
  rate : Option String
  liquidityProvider : String
  refundAddress : Option String
  deriving DecidableEq, Repr

/-! ## JupiterService (`src/services/jupiterService.ts`) -/

/-- The external world seen by `JupiterService`: the Jupiter HTTP API, the
Solana RPC connection, SPL associated-token-address derivation, and the wallet.
Each field models one awaited external call; `.error` means the call threw or
the promise rejected (with the given `message`). -/
structure JupEnv where
  /-- `fetch(baseUrl/quote?...)` + status/JSON handling: the raw outcome of the
  quote request, before `validateQuote`. The last argument is the
  `platformFeeBps` query parameter, present only when positive. -/
  fetchQuote : String → String → Int → Nat → Option Nat → Except String JupiterQuote
  /-- `POST baseUrl/swap` with the given body. -/
  postSwap : SwapRequest → Except String SwapTransaction
  /-- `getAssociatedTokenAddress(new PublicKey(mint), new PublicKey(owner))`
  (mint first, owner second, as called in the source). -/
  getATA : String → String → Except String String
  /-- `VersionedTransaction.deserialize(Buffer.from(payload, 'base64'))`. -/
  decodeTx : String → Except String DecodedTx
  /-- `wallet.signTransaction(transaction)`. -/
  signTx : DecodedTx → Except String SignedTx
  /-- `connection.sendTransaction(signed, {maxRetries, skipPreflight: true})`,
  returning the signature. -/
  sendTx : SignedTx → Except String String
  /-- `connection.confirmTransaction({signature, blockhash,
  lastValidBlockHeight}, 'confirmed')`. -/
  confirmTx : String → String → Nat → Except String ConfirmResult
  /-- `new PublicKey(s)` succeeds. -/
  isValidPubkey : String → Bool
  /-- `wallet.publicKey.toString()`. -/
  walletPk : String
  /-- `CONFIG.DEFAULT_SLIPPAGE` (configuration registry, out of scope). -/
  defaultSlippage : Nat
  /-- `CONFIG.PRIORITY_LEVEL` (configuration registry, out of scope). -/
  priorityLevel : String

/-- `JupiterService.validateQuote`: `some message` when the check throws.
(The high-price-impact branch only emits a console warning.) -/
def validateQuote (quote : JupiterQuote) : Option String :=
  if quote.inputMint = "" ∨ quote.outputMint = "" then
    some "Invalid quote: missing mint addresses"
  else if quote.inAmount = "" ∨ quote.outAmount = "" then
    some "Invalid quote: missing amounts"
  else none

/-- `JupiterService.getQuote`: fetch, validate, and wrap any failure in
a `Failed to get quote: ...` error. -/
def getQuote (env : JupEnv) (inputMint outputMint : String) (amount : Int)
    (slippageBps : Nat) (platformFeeBps : Nat) : Except String JupiterQuote :=
  match env.fetchQuote inputMint outputMint amount slippageBps
      (if platformFeeBps > 0 then some platformFeeBps else none) with
  | .error e => .error ("Failed to get quote: " ++ e)
  | .ok quote =>
    match validateQuote quote with
    | some e => .error ("Failed to get quote: " ++ e)
    | none => .ok quote

/-- The default `prioritizationFeeLamports` (0.001 SOL cap at the configured
priority level). -/
def defaultPriorityFee (level : String) : PriorityFeeCfg :=
  { maxLamports := 1000000, priorityLevel := level, global := false }

/-- `JupiterService.createSwapTransaction`: build the `/swap` request body and
post it, wrapping any failure in a `Failed to create swap transaction: ...`
error. -/
def createSwapTransaction (env : JupEnv) (quote : JupiterQuote)
    (userPublicKey : String) (options : SwapOptions) :
    Except String SwapTransaction :=
  let swapRequest : SwapRequest :=
    { quoteResponse := quote
      userPublicKey := userPublicKey
      dynamicComputeUnitLimit := options.dynamicComputeUnitLimit.getD true
      dynamicSlippage := options.dynamicSlippage.getD true
      prioritizationFeeLamports :=
        options.priorityFeeConfig.getD (defaultPriorityFee env.priorityLevel)
      feeAccount := options.feeAccount
      destinationTokenAccount := options.destinationTokenAccount }
  match env.postSwap swapRequest with
  | .error e => .error ("Failed to create swap transaction: " ++ e)
  | .ok t => .ok t

/-- A failure `TransactionResult` (the value built in the `catch` branches). -/
def failResult (e : String) : TransactionResult :=
  { signature := "", success := false, error := some e, outputAmount := none }

/-- `JupiterService.executeSwap`: decode, sign, submit, confirm; any thrown
error (including an on-chain `confirmation.value.err`) is caught and converted
into a failure result — the function never raises. -/
def executeSwap (env : JupEnv) (swapTransaction : SwapTransaction) :
    TransactionResult :=
  match env.decodeTx swapTransaction.swapTransaction with
  | .error e => failResult e
  | .ok transaction =>
    match env.signTx transaction with
    | .error e => failResult e
    | .ok signedTransaction =>
      match env.sendTx signedTransaction with
      | .error e => failResult e
      | .ok signature =>
        match env.confirmTx signature transaction.recentBlockhash
            swapTransaction.lastValidBlockHeight with
        | .error e => failResult e
        | .ok confirmation =>
          match confirmation.err with
          | some err => failResult ("Transaction failed: " ++ err)
          | none =>
            { signature := signature, success := true, error := none,
              outputAmount := none }

/-- The order parameters handed to `executeOrderSwap`. -/
structure OrderSwapParams where
  inputMint : String
  outputMint : String
  inputAmount : Int
  liquidityProvider : String
  treasuryWallet : String
  platformFeeBps : Nat
  deriving DecidableEq, Repr

/-- `JupiterService.executeOrderSwap`: quote → derive treasury fee account and
LP destination account → build transaction → execute; every stage failure is
caught and converted into a failure result — the function never raises. -/
def executeOrderSwap (env : JupEnv) (order : OrderSwapParams) :
    TransactionResult :=
  match getQuote env order.inputMint order.outputMint order.inputAmount
      env.defaultSlippage order.platformFeeBps with
  | .error e => failResult e
  | .ok quote =>
    match env.getATA order.inputMint order.treasuryWallet with
    | .error e => failResult e
    | .ok treasuryTokenAccount =>
      match env.getATA order.outputMint order.liquidityProvider with
      | .error e => failResult e
      | .ok lpTokenAccount =>
        match createSwapTransaction env quote env.walletPk
            { feeAccount := some treasuryTokenAccount,
              destinationTokenAccount := some lpTokenAccount } with
        | .error e => failResult e
        | .ok swapTransaction =>
          let result := executeSwap env swapTransaction
          { result with outputAmount := some quote.outAmount }

/-! ## OrderManager (`src/services/orderManger.ts`) -/

/-- The entry list of a JS `Map<string, Order>` in insertion order. -/
abbrev OrderMap := List (String × Order)

/-- JS `map.get(k)`. -/
def mapGet (m : OrderMap) (k : String) : Option Order :=
  match m with
  | [] => none
  | kv :: rest => if kv.1 = k then some kv.2 else mapGet rest k

/-- JS `map.set(k, v)`: replace in place when the key exists, else append. -/
def mapSet (m : OrderMap) (k : String) (v : Order) : OrderMap :=
  match m with
  | [] => [(k, v)]
  | kv :: rest => if kv.1 = k then (k, v) :: rest else kv :: mapSet rest k v

/-- JS `new Map(entries)`: insert the pairs left to right. -/
def jsMapOfList (l : OrderMap) : OrderMap :=
  l.foldl (fun m kv => mapSet m kv.1 kv.2) []

/-- Constructor configuration of `OrderManager`. -/
structure OMConfig where
  protocolFeeBps : Nat
  treasuryWallet : String
  deriving DecidableEq, Repr

/-- Mutable state of an `OrderManager`: the keyed collection, the id counter,
and the durable mirror (`localStorage` blob, identified with the entry list it
encodes). -/
structure OMState where
  orders : OrderMap
  orderIdCounter : Nat
  mirror : OrderMap
  deriving DecidableEq, Repr

/-- `OrderManager.persistOrders`: serialize the whole collection into the
durable mirror. -/
def persistOrders (st : OMState) : OMState := { st with mirror := st.orders }

/-- `OrderManager.validateOrderParams`: `some message` when validation throws,
in the source's check order. -/
def validateOrderParams (env : JupEnv) (params : OrderCreationParams) :
    Option String :=
  if params.inputToken = "" ∨ params.outputToken = "" then
    some "Input and output tokens are required"
  else if params.inputToken = params.outputToken then
    some "Input and output tokens cannot be the same"
  else if params.inputAmount ≤ 0 then
    some "Input amount must be greater than 0"
  else if params.liquidityProvider = "" then
    some "Liquidity provider address is required"
  else if ¬ env.isValidPubkey params.liquidityProvider then
    some "Invalid liquidity provider address"
  else
    match params.refundAddress with
    | some ra =>
      if ra ≠ "" ∧ ¬ env.isValidPubkey ra then some "Invalid refund address"
      else none
    | none => none

/-- The id string built by `generateOrderId` from `Date.now()` and the
(already incremented) counter value. -/
def genOrderId (now : Nat) (counter : Nat) : String :=
  "order_" ++ natToString now ++ "_" ++ padStart4 (natToString counter)

/-- `OrderManager.createOrder`. Returns the post-state and either the new
order id or the raised (wrapped) error message; every throw happens before any
mutation, so the state is unchanged on error. `now` is `Date.now()`. -/
def createOrder (om : OMConfig) (env : JupEnv) (st : OMState)
    (params : OrderCreationParams) (userPublicKey : String) (now : Nat) :
    OMState × Except String String :=
  match validateOrderParams env params with
  | some e => (st, .error ("Failed to create order: " ++ e))
  | none =>
    if om.treasuryWallet = "" then
      (st, .error "Failed to create order: Treasury wallet not configured")
    else
      match getQuote env params.inputToken params.outputToken
          params.inputAmount 50 om.protocolFeeBps with
      | .error e => (st, .error ("Failed to create order: " ++ e))
      | .ok quote =>
        let protocolFee : ℚ :=
          ((params.inputAmount : ℚ) * (om.protocolFeeBps : ℚ)) / 10000
        let counter := st.orderIdCounter + 1
        let orderId := genOrderId now counter
        let order : Order :=
          { id := orderId
            inputToken := params.inputToken
            outputToken := params.outputToken
            inputAmount := params.inputAmount
            expectedOutputAmount := jsParseInt quote.outAmount
            actualOutputAmount := none
            rate := jsOrStr params.rate "Market Rate"
            creator := userPublicKey
            refundAddress := jsOrStr params.refundAddress userPublicKey
            liquidityProvider := params.liquidityProvider
            status := .pending
            timestamp := now
            quote := quote
            transactionSignature := none
            errorMessage := none
            protocolFee := protocolFee
            priceImpact := quote.priceImpactPct }
        let orders := mapSet st.orders orderId order
        (persistOrders { st with orders := orders, orderIdCounter := counter },
          .ok orderId)

/-- The argument object `executeOrder` passes to `executeOrderSwap`. -/
def orderSwapParamsOf (om : OMConfig) (order : Order) : OrderSwapParams :=
  { inputMint := order.inputToken
    outputMint := order.outputToken
    inputAmount := order.inputAmount
    liquidityProvider := order.liquidityProvider
    treasuryWallet := om.treasuryWallet
    platformFeeBps := om.protocolFeeBps }

/-- `OrderManager.executeOrder`. Returns the post-state and `some message`
when the method throws. On a failed swap the `catch` block records the failure
(`result.error || 'Swap execution failed'`, the message of the re-thrown
error), persists, and re-throws. -/
def executeOrder (om : OMConfig) (env : JupEnv) (st : OMState)
    (orderId : String) : OMState × Option String :=
  match mapGet st.orders orderId with
  | none => (st, some "Order not found")
  | some order =>
    if order.status ≠ .pending then
      (st, some ("Order is not in pending status. Current status: "
        ++ order.status.toText))
    else
      let result := executeOrderSwap env (orderSwapParamsOf om order)
      if result.success then
        let order' : Order :=
          { order with
            transactionSignature := some result.signature
            actualOutputAmount :=
              match result.outputAmount with
              | some s =>
                if s = "" then some order.expectedOutputAmount
                else some (jsParseInt s)
              | none => some order.expectedOutputAmount
            status := .fulfilled }
        (persistOrders { st with orders := mapSet st.orders orderId order' },
          none)
      else
        let msg := jsOrStr result.error "Swap execution failed"
        let order' : Order :=
          { order with
            status := .failed
            errorMessage := some msg }
        (persistOrders { st with orders := mapSet st.orders orderId order' },
          some msg)

/-- `OrderManager.cancelOrder`. Returns the post-state and `some message` when
the method throws; nothing is mutated on any throw. -/
def cancelOrder (st : OMState) (orderId : String) (userPublicKey : String) :
    OMState × Option String :=
  match mapGet st.orders orderId with
  | none => (st, some "Order not found")
  | some order =>
    if order.creator ≠ userPublicKey then
      (st, some "Unauthorized: Only order creator can cancel")
    else if order.status ≠ .pending then
      (st, some ("Cannot cancel order with status: " ++ order.status.toText))
    else
      let order' : Order := { order with status := .cancelled }
      (persistOrders { st with orders := mapSet st.orders orderId order' },
        none)

/-- `OrderManager.updateOrderQuote`. Returns the post-state and `some message`
when the method throws; the quote fetch precedes every mutation, so the state
is unchanged on error. -/
def updateOrderQuote (om : OMConfig) (env : JupEnv) (st : OMState)
    (orderId : String) : OMState × Option String :=
  match mapGet st.orders orderId with
  | none => (st, some "Cannot update quote for non-pending order")
  | some order =>
    if order.status ≠ .pending then
      (st, some "Cannot update quote for non-pending order")
    else
      match getQuote env order.inputToken order.outputToken order.inputAmount
          50 om.protocolFeeBps with
      | .error e => (st, some e)
      | .ok newQuote =>
        let order' : Order :=
          { order with
            quote := newQuote
            expectedOutputAmount := jsParseInt newQuote.outAmount
            priceImpact := newQuote.priceImpactPct }
        (persistOrders { st with orders := mapSet st.orders orderId order' },
          none)

/-- `QUOTE_EXPIRY_TIME` (5 minutes, in milliseconds). -/
def QUOTE_EXPIRY_TIME : Int := 5 * 60 * 1000

/-- The filter predicate of `getOrdersRequiringAttention`. -/
def attentionPred (now : Nat) (order : Order) : Bool :=
  if order.status = .failed then true
  else if order.status = .pending ∧
      (now : Int) - (order.timestamp : Int) > QUOTE_EXPIRY_TIME then true
  else false

/-- `OrderManager.getOrdersRequiringAttention` (`now` is `Date.now()`). -/
def getOrdersRequiringAttention (st : OMState) (now : Nat) : List Order :=
  (st.orders.map Prod.snd).filter (attentionPred now)

/-- The numeric suffix a persisted id contributes to the counter reset:
`parseInt(id.split('_')[2]) || 0`. -/
def suffixVal (id : String) : Int :=
  match (splitUnderscore id).get? 2 with
  | some part => (jsParseInt part).getD 0
  | none => 0

/-- `Math.max(0, ...ids.map(id => parseInt(id.split('_')[2]) || 0))`. -/
def maxSuffix (keys : List String) : Int :=
  keys.foldl (fun a k => max a (suffixVal k)) 0

/-- `OrderManager.loadPersistedOrders`: rebuild the collection from the stored
entry list (`none` = nothing stored, or an unreadable blob, both of which
leave the collection empty and the counter at 0) and reset the counter to the
highest numeric id suffix. -/
def loadPersistedOrders (stored : Option OrderMap) : OMState :=
  match stored with
  | none => { orders := [], orderIdCounter := 0, mirror := [] }
  | some l =>
    let orders := jsMapOfList l
    { orders := orders
      orderIdCounter := (maxSuffix (orders.map Prod.fst)).toNat
      mirror := l }

/-- `OrderManager.exportOrders`: serialize the entry list (JSON serialization
of these field types is lossless, so the string is identified with the data it
encodes). -/
def exportOrders (st : OMState) : OrderMap := st.orders

/-- `OrderManager.importOrders` on a well-formed payload: fully replace the
collection and persist. -/
def importOrders (st : OMState) (ordersData : OrderMap) : OMState :=
  persistOrders { st with orders := jsMapOfList ordersData }

/-- A lifecycle-mutating call on an `OrderManager` (the three operations of
the state machine that act on an existing order). -/
inductive MgrOp where
  | execute (env : JupEnv) (orderId : String)
  | cancel (orderId : String) (userPublicKey : String)
  | updateQuote (env : JupEnv) (orderId : String)

/-- The state after one lifecycle call (whether or not it threw). -/
def applyOp (om : OMConfig) (st : OMState) : MgrOp → OMState
  | .execute env orderId => (executeOrder om env st orderId).1
  | .cancel orderId userPk => (cancelOrder st orderId userPk).1
  | .updateQuote env orderId => (updateOrderQuote om env st orderId).1

/-- The state after a sequence of lifecycle calls. -/
def applyOps (om : OMConfig) (st : OMState) (ops : List MgrOp) : OMState :=
  ops.foldl (applyOp om) st

/-- A terminal order status. -/
def IsTerminal (s : OrderStatus) : Prop :=
  s = .fulfilled ∨ s = .failed ∨ s = .cancelled

instance (s : OrderStatus) : Decidable (IsTerminal s) := by
  unfold IsTerminal; infer_instance

/-! ## Sample data (concrete instances used by witnesses) -/

/-- A concrete valid quote. -/
def sampleQuote : JupiterQuote :=
  { inputMint := "SOLMINT"
    inAmount := "1000000"
    outputMint := "USDCMINT"
    outAmount := "995000"
    otherAmountThreshold := "990000"
    swapMode := "ExactIn"
    slippageBps := 50
    priceImpactPct := "0.01"
    routePlan := []
    contextSlot := 123
    timeTaken := 1 }

/-- An environment in which every external call succeeds. -/
def envAllOk : JupEnv :=
  { fetchQuote := fun _ _ _ _ _ => .ok sampleQuote
    postSwap := fun _ => .ok { swapTransaction := "dGVzdA==", lastValidBlockHeight := 500 }
    getATA := fun mint owner => .ok (mint ++ ":" ++ owner)
    decodeTx := fun _ => .ok { recentBlockhash := "hash1" }
    signTx := fun _ => .ok { raw := "signedtx" }
    sendTx := fun _ => .ok "sig123"
    confirmTx := fun _ _ _ => .ok { err := none }
    isValidPubkey := fun _ => true
    walletPk := "walletpk"
    defaultSlippage := 50
    priorityLevel := "veryHigh" }

/-- `envAllOk` with a failing quote endpoint. -/
def envQuoteDown : JupEnv :=
  { envAllOk with fetchQuote := fun _ _ _ _ _ => .error "service unavailable" }

/-- A concrete manager configuration: 100 bps fee, configured treasury. -/
def cfg100 : OMConfig := { protocolFeeBps := 100, treasuryWallet := "treasury" }

/-- The empty manager state. -/
def stEmpty : OMState := { orders := [], orderIdCounter := 0, mirror := [] }

/-- A concrete pending order created by "alice". -/
def samplePending : Order :=
  { id := "o1"
    inputToken := "SOLMINT"
    outputToken := "USDCMINT"
    inputAmount := 1000000
    expectedOutputAmount := some 995000
    actualOutputAmount := none
    rate := "Market Rate"
    creator := "alice"
    refundAddress := "alice"
    liquidityProvider := "lp"
    status := .pending
    timestamp := 1000
    quote := sampleQuote
    transactionSignature := none
    errorMessage := none
    protocolFee := 10000
    priceImpact := "0.01" }

/-- A concrete fulfilled (terminal) order. -/
def sampleFulfilled : Order := { samplePending with id := "o2", status := .fulfilled }

/-- A state holding the single pending order `"o1"`. -/
def stPending : OMState :=
  { orders := [("o1", samplePending)]
    orderIdCounter := 1
    mirror := [("o1", samplePending)] }

/-- A state holding a fulfilled order `"o2"` beside the pending `"o1"`. -/
def stMixed : OMState :=
  { orders := [("o2", sampleFulfilled), ("o1", samplePending)]
    orderIdCounter := 2
    mirror := [("o2", sampleFulfilled), ("o1", samplePending)] }

/-- Valid creation parameters with `inputAmount = 1_000_000`. -/
def paramsMillion : OrderCreationParams :=
  { inputToken := "SOLMINT"
    outputToken := "USDCMINT"
    inputAmount := 1000000
    rate := none
    liquidityProvider := "lp"
    refundAddress := none }

/-- Valid creation parameters with `inputAmount = 3` (fee not divisible). -/
def paramsThree : OrderCreationParams := { paramsMillion with inputAmount := 3 }

/-! ## Association-list (JS `Map`) lemmas -/

theorem mapGet_mapSet_self (m : OrderMap) (k : String) (v : Order) :
    mapGet (mapSet m k v) k = some v := by
  induction m with
  | nil => simp [mapSet, mapGet]
  | cons kv rest ih =>
    obtain ⟨a, b⟩ := kv
    by_cases h : a = k
    · subst h
      simp [mapSet, mapGet]
    · simp [mapSet, mapGet, h, ih]

theorem mapGet_mapSet_ne (m : OrderMap) (k k' : String) (v : Order)
    (h : k' ≠ k) : mapGet (mapSet m k v) k' = mapGet m k' := by
  induction m with
  | nil => simp [mapSet, mapGet, Ne.symm h]
  | cons kv rest ih =>
    obtain ⟨a, b⟩ := kv
    by_cases hk : a = k
    · subst hk
      simp [mapSet, mapGet, Ne.symm h]
    · simp only [mapSet, if_neg hk, mapGet]
      split_ifs with h2
      · rfl
      · exact ih

theorem mapSet_of_not_mem (m : OrderMap) (k : String) (v : Order)
    (h : k ∉ m.map Prod.fst) : mapSet m k v = m ++ [(k, v)] := by
  induction m with
  | nil => simp [mapSet]
  | cons kv rest ih =>
    obtain ⟨a, b⟩ := kv
    simp only [List.map_cons, List.mem_cons, not_or] at h
    simp only [mapSet, if_neg (Ne.symm h.1), List.cons_append, List.cons.injEq,
      true_and]
    exact ih h.2

theorem jsMapOfList_foldl_eq_append (l : OrderMap) :
    ∀ m : OrderMap, (l.map Prod.fst).Nodup →
      (∀ k, k ∈ m.map Prod.fst → k ∈ l.map Prod.fst → False) →
      l.foldl (fun acc kv => mapSet acc kv.1 kv.2) m = m ++ l := by
  induction l with
  | nil => intro m _ _; simp
  | cons kv rest ih =>
    intro m hl hd
    obtain ⟨a, b⟩ := kv
    simp only [List.map_cons, List.nodup_cons] at hl
    have ha_not_m : a ∉ m.map Prod.fst := fun hmem => hd a hmem (by simp)
    simp only [List.foldl_cons]
    rw [mapSet_of_not_mem m a b ha_not_m]
    have hd' : ∀ k, k ∈ (m ++ [(a, b)]).map Prod.fst →
        k ∈ rest.map Prod.fst → False := by
      intro k hk hkr
      simp only [List.map_append, List.map_cons, List.map_nil, List.mem_append,
        List.mem_singleton] at hk
      rcases hk with hk | hk
      · exact hd k hk (by simp [hkr])
      · subst hk
        exact hl.1 hkr
    have := ih (m ++ [(a, b)]) hl.2 hd'
    simpa [List.append_assoc] using this

theorem jsMapOfList_self (l : OrderMap) (h : (l.map Prod.fst).Nodup) :
    jsMapOfList l = l := by
  have := jsMapOfList_foldl_eq_append l [] h (by simp)
  simpa [jsMapOfList] using this

/-! ## Lifecycle-operation frame lemmas -/

theorem executeOrder_frame (om : OMConfig) (env : JupEnv) (st : OMState)
    (oid' oid : String) (o : Order) (hget : mapGet st.orders oid = some o)
    (hkeep : oid' = oid → o.status ≠ .pending) :
    mapGet (executeOrder om env st oid').1.orders oid = some o := by
  unfold executeOrder
  split
  · exact hget
  next ord heq =>
    split
    · exact hget
    next hstat =>
      have hid : oid' ≠ oid := by
        intro he
        subst he
        rw [heq] at hget
        injection hget with ho
        exact hstat (by rw [ho]; exact hkeep rfl)
      dsimp only
      split <;>
        (simp only [persistOrders]
         rw [mapGet_mapSet_ne _ _ _ _ (Ne.symm hid)]
         exact hget)

theorem cancelOrder_frame (st : OMState) (oid' caller oid : String) (o : Order)
    (hget : mapGet st.orders oid = some o)
    (hkeep : oid' = oid → o.status ≠ .pending) :
    mapGet (cancelOrder st oid' caller).1.orders oid = some o := by
  unfold cancelOrder
  split
  · exact hget
  next ord heq =>
    split
    · exact hget
    · split
      · exact hget
      next hstat =>
        have hid : oid' ≠ oid := by
          intro he
          subst he
          rw [heq] at hget
          injection hget with ho
          exact hstat (by rw [ho]; exact hkeep rfl)
        simp only [persistOrders]
        rw [mapGet_mapSet_ne _ _ _ _ (Ne.symm hid)]
        exact hget

theorem updateOrderQuote_frame_other (om : OMConfig) (env : JupEnv)
    (st : OMState) (oid' oid : String) (o : Order)
    (hget : mapGet st.orders oid = some o)
    (hkeep : oid' = oid → o.status ≠ .pending) :
    mapGet (updateOrderQuote om env st oid').1.orders oid = some o := by
  unfold updateOrderQuote
  split
  · exact hget
  next ord heq =>
    split
    · exact hget
    next hstat =>
      have hid : oid' ≠ oid := by
        intro he
        subst he
        rw [heq] at hget
        injection hget with ho
        exact hstat (by rw [ho]; exact hkeep rfl)
      split
      · exact hget
      · simp only [persistOrders]
        rw [mapGet_mapSet_ne _ _ _ _ (Ne.symm hid)]
        exact hget

theorem applyOp_preserves_order (om : OMConfig) (op : MgrOp) (st : OMState)
    (oid : String) (o : Order) (hget : mapGet st.orders oid = some o)
    (hnp : o.status ≠ .pending) :
    mapGet (applyOp om st op).orders oid = some o := by
  cases op with
  | execute env oid' => exact executeOrder_frame om env st oid' oid o hget (fun _ => hnp)
  | cancel oid' caller => exact cancelOrder_frame st oid' caller oid o hget (fun _ => hnp)
  | updateQuote env oid' =>
    exact updateOrderQuote_frame_other om env st oid' oid o hget (fun _ => hnp)

/-! ## Claim C2 -/

/-- **C2.** Terminal statuses are final: once an order's status is
`fulfilled`, `failed`, or `cancelled`, no sequence of `executeOrder`,
`cancelOrder`, or `updateOrderQuote` calls (on any order id, in any
environment) ever changes it — each operation refuses to act unless the
targeted order is `pending`, and operations on other ids leave the binding
untouched, so the stored order (its status included) is preserved verbatim. -/
theorem terminal_status_immutable (om : OMConfig) (ops : List MgrOp)
    (st : OMState) (oid : String) (o : Order)
    (hget : mapGet st.orders oid = some o) (hterm : IsTerminal o.status) :
    mapGet (applyOps om st ops).orders oid = some o := by
  have hnp : o.status ≠ .pending := by
    rcases hterm with h | h | h <;> (rw [h]; intro hc; cases hc)
  clear hterm
  induction ops generalizing st with
  | nil => exact hget
  | cons op rest ih =>
    simp only [applyOps, List.foldl_cons]
    exact ih _ (applyOp_preserves_order om op st oid o hget hnp)

/-- Witness for C2: a fulfilled order survives a cancel, an execute, and a
quote refresh aimed at it, plus a successful execute of a different order. -/
theorem terminal_status_immutable_witness :
    mapGet (applyOps cfg100 stMixed
      [.cancel "o2" "alice", .execute envAllOk "o2", .updateQuote envAllOk "o2",
        .execute envAllOk "o1"]).orders "o2" = some sampleFulfilled :=
  terminal_status_immutable cfg100 _ stMixed "o2" sampleFulfilled rfl
    (Or.inl rfl)

/-! ## Claim C9 -/

theorem attentionPred_eq_true (now : Nat) (o : Order) :
    attentionPred now o = true ↔
      (o.status = .failed ∨
        (o.status = .pending ∧
          (now : Int) - (o.timestamp : Int) > QUOTE_EXPIRY_TIME)) := by
  unfold attentionPred
  split_ifs with h1 h2
  · simp [h1]
  · simp [h2]
  · simp [h1, h2]

/-- **C9.** An order is in `getOrdersRequiringAttention` iff it is stored and
either its status is `failed`, or its status is `pending` and the time
elapsed since its `timestamp` strictly exceeds the fixed staleness window
`QUOTE_EXPIRY_TIME` (5 minutes); in particular a pending order 10 minutes old
qualifies and one 1 minute old does not. -/
theorem getOrdersRequiringAttention_iff (st : OMState) (now : Nat) (o : Order) :
    o ∈ getOrdersRequiringAttention st now ↔
      o ∈ st.orders.map Prod.snd ∧
        (o.status = .failed ∨
          (o.status = .pending ∧
            (now : Int) - (o.timestamp : Int) > QUOTE_EXPIRY_TIME)) := by
  unfold getOrdersRequiringAttention
  rw [List.mem_filter, attentionPred_eq_true]

/-- Witness for C9: the pending order (created at t = 1000) requires
attention 10 minutes later but not 1 minute later. -/
theorem getOrdersRequiringAttention_iff_witness :
    samplePending ∈ getOrdersRequiringAttention stPending 601000
      ∧ samplePending ∉ getOrdersRequiringAttention stPending 61000 := by
  constructor
  · exact (getOrdersRequiringAttention_iff stPending 601000 samplePending).mpr
      ⟨by decide, Or.inr ⟨rfl, by decide⟩⟩
  · intro hmem
    rcases (getOrdersRequiringAttention_iff stPending 61000
        samplePending).mp hmem with ⟨_, h | ⟨_, h⟩⟩
    · exact absurd h (by decide)
    · exact absurd h (by decide)

/-! ## Claim C8 -/

/-- **C8.** Export/import round-trip: for any collection (with the `Map`
invariant that ids are unique keys), `importOrders (exportOrders st)`
reproduces an identical keyed collection — the same entry list, hence the
same ids mapping to orders with the same field values. -/
theorem importOrders_exportOrders_roundtrip (st : OMState)
    (h : (st.orders.map Prod.fst).Nodup) :
    (importOrders st (exportOrders st)).orders = st.orders := by
  simp [importOrders, exportOrders, persistOrders, jsMapOfList_self st.orders h]

/-- Witness for C8 on a concrete two-order collection. -/
theorem importOrders_exportOrders_roundtrip_witness :
    (importOrders stMixed (exportOrders stMixed)).orders = stMixed.orders :=
  importOrders_exportOrders_roundtrip stMixed (by decide)

/-! ## Claim C5 -/

/-- **C5.** `cancelOrder` on an existing order succeeds exactly when the
caller is the order's creator and the status is `pending` (flipping the
status to `cancelled` and persisting); a non-creator caller fails with the
authorization error, a creator cancelling a non-pending order fails with the
invalid-state error, and in every failure case the whole state — the order's
status and every other field — is unchanged. -/
theorem cancelOrder_spec (st : OMState) (oid caller : String) (o : Order)
    (hget : mapGet st.orders oid = some o) :
    (o.creator = caller ∧ o.status = .pending →
        cancelOrder st oid caller =
          (persistOrders
            { st with
              orders := mapSet st.orders oid { o with status := .cancelled } },
            none))
    ∧ (o.creator ≠ caller →
        cancelOrder st oid caller =
          (st, some "Unauthorized: Only order creator can cancel"))
    ∧ (o.creator = caller → o.status ≠ .pending →
        cancelOrder st oid caller =
          (st, some ("Cannot cancel order with status: " ++ o.status.toText))) := by
  refine ⟨?_, ?_, ?_⟩
  · rintro ⟨hc, hp⟩
    simp only [cancelOrder, hget]
    rw [if_neg (not_not_intro hc), if_neg (not_not_intro hp)]
  · intro hc
    simp only [cancelOrder, hget]
    rw [if_pos hc]
  · intro hc hp
    simp only [cancelOrder, hget]
    rw [if_neg (not_not_intro hc), if_pos hp]

/-- Witness for C5: the creator cancels their own pending order. -/
theorem cancelOrder_spec_witness :
    cancelOrder stPending "o1" "alice" =
      (persistOrders
        { stPending with
          orders := mapSet stPending.orders "o1" { samplePending with status := .cancelled } },
        none) :=
  (cancelOrder_spec stPending "o1" "alice" samplePending rfl).1 ⟨rfl, rfl⟩

/-! ## Claim C6 -/

/-- **C6.** A successful `updateOrderQuote` on a pending order replaces
exactly the `quote`, `expectedOutputAmount`, and `priceImpact` fields (from
the freshly fetched quote) and leaves every other field — `protocolFee` in
particular — unchanged; the second conjunct states the fee preservation
explicitly. -/
theorem updateOrderQuote_refresh (om : OMConfig) (env : JupEnv) (st : OMState)
    (oid : String) (o : Order) (q : JupiterQuote)
    (hget : mapGet st.orders oid = some o) (hp : o.status = .pending)
    (hq : getQuote env o.inputToken o.outputToken o.inputAmount 50
        om.protocolFeeBps = .ok q) :
    updateOrderQuote om env st oid =
      (persistOrders
        { st with
          orders :=
            mapSet st.orders oid
              { o with
                quote := q
                expectedOutputAmount := jsParseInt q.outAmount
                priceImpact := q.priceImpactPct } },
        none)
    ∧ ({ o with
         quote := q
         expectedOutputAmount := jsParseInt q.outAmount
         priceImpact := q.priceImpactPct } : Order).protocolFee
        = o.protocolFee := by
  refine ⟨?_, rfl⟩
  simp only [updateOrderQuote, hget]
  rw [if_neg (not_not_intro hp)]
  simp only [hq]

/-- Witness for C6: refreshing the concrete pending order. -/
theorem updateOrderQuote_refresh_witness :
    updateOrderQuote cfg100 envAllOk stPending "o1" =
      (persistOrders
        { stPending with
          orders :=
            mapSet stPending.orders "o1"
              { samplePending with
                quote := sampleQuote
                expectedOutputAmount := jsParseInt sampleQuote.outAmount
                priceImpact := sampleQuote.priceImpactPct } },
        none) :=
  (updateOrderQuote_refresh cfg100 envAllOk stPending "o1" samplePending
    sampleQuote rfl rfl rfl).1

/-! ## Claim C4 -/

/-- **C4.** When `executeOrder` runs on an existing pending order and the
composed swap fails (at any sub-stage: the failure is visible only as
`success = false` in the swap result), the order's status becomes `failed`,
the failure reason (`result.error`, or the re-thrown error's message when the
result carries none) is recorded in `errorMessage`, the change is persisted
to the mirror, and `executeOrder` raises that same message to its caller. -/
theorem executeOrder_swap_failure (om : OMConfig) (env : JupEnv) (st : OMState)
    (oid : String) (o : Order)
    (hget : mapGet st.orders oid = some o) (hp : o.status = .pending)
    (hf : (executeOrderSwap env (orderSwapParamsOf om o)).success = false) :
    ∃ msg, msg = jsOrStr (executeOrderSwap env (orderSwapParamsOf om o)).error
        "Swap execution failed" ∧
      executeOrder om env st oid =
        (persistOrders
          { st with
            orders :=
              mapSet st.orders oid
                { o with
                  status := .failed
                  errorMessage := some msg } },
          some msg) := by
  refine ⟨_, rfl, ?_⟩
  simp only [executeOrder, hget]
  rw [if_neg (not_not_intro hp)]
  rw [if_neg (by rw [hf]; exact Bool.false_ne_true)]

/-- Witness for C4: the quote service is down, so the swap fails at its first
sub-stage; the order flips to `failed` with the reason recorded and raised. -/
theorem executeOrder_swap_failure_witness :
    executeOrder cfg100 envQuoteDown stPending "o1" =
      (persistOrders
        { stPending with
          orders :=
            mapSet stPending.orders "o1"
              { samplePending with
                status := .failed
                errorMessage := some "Failed to get quote: service unavailable" } },
        some "Failed to get quote: service unavailable") := by
  obtain ⟨msg, hmsg, h⟩ := executeOrder_swap_failure cfg100 envQuoteDown
    stPending "o1" samplePending rfl rfl rfl
  rw [h, hmsg]
  rfl

/-! ## Swap-execution shape lemmas -/

theorem executeSwap_cases (env : JupEnv) (st : SwapTransaction) :
    (∃ sig, executeSwap env st =
        { signature := sig, success := true, error := none, outputAmount := none })
    ∨ (∃ e, executeSwap env st = failResult e) := by
  unfold executeSwap
  split
  · exact Or.inr ⟨_, rfl⟩
  · split
    · exact Or.inr ⟨_, rfl⟩
    · split
      · exact Or.inr ⟨_, rfl⟩
      · split
        · exact Or.inr ⟨_, rfl⟩
        · split
          · exact Or.inr ⟨_, rfl⟩
          · exact Or.inl ⟨_, rfl⟩

theorem executeOrderSwap_success_eq (env : JupEnv) (p : OrderSwapParams)
    (hs : (executeOrderSwap env p).success = true) :
    ∃ q sig, getQuote env p.inputMint p.outputMint p.inputAmount
        env.defaultSlippage p.platformFeeBps = .ok q ∧
      executeOrderSwap env p =
        { signature := sig, success := true, error := none,
          outputAmount := some q.outAmount } := by
  unfold executeOrderSwap at hs ⊢
  rcases hq : getQuote env p.inputMint p.outputMint p.inputAmount
      env.defaultSlippage p.platformFeeBps with e | q
  · simp [hq, failResult] at hs
  · simp only [hq] at hs ⊢
    rcases hA : env.getATA p.inputMint p.treasuryWallet with e | ata1
    · simp [hA, failResult] at hs
    · simp only [hA] at hs ⊢
      rcases hB : env.getATA p.outputMint p.liquidityProvider with e | ata2
      · simp [hB, failResult] at hs
      · simp only [hB] at hs ⊢
        rcases hC : createSwapTransaction env q env.walletPk
            { feeAccount := some ata1, destinationTokenAccount := some ata2 }
          with e | t
        · simp [hC, failResult] at hs
        · simp only [hC] at hs ⊢
          rcases executeSwap_cases env t with ⟨sig, hok⟩ | ⟨e, hfail⟩
          · refine ⟨q, sig, rfl, ?_⟩
            simp only [hok]
          · rw [hfail] at hs
            simp [failResult] at hs

theorem executeOrderSwap_failure_shape (env : JupEnv) (p : OrderSwapParams)
    (hs : (executeOrderSwap env p).success = false) :
    (executeOrderSwap env p).signature = ""
      ∧ (executeOrderSwap env p).error ≠ none := by
  unfold executeOrderSwap at hs ⊢
  rcases hq : getQuote env p.inputMint p.outputMint p.inputAmount
      env.defaultSlippage p.platformFeeBps with e | q
  · simp [hq, failResult]
  · simp only [hq] at hs ⊢
    rcases hA : env.getATA p.inputMint p.treasuryWallet with e | ata1
    · simp [hA, failResult]
    · simp only [hA] at hs ⊢
      rcases hB : env.getATA p.outputMint p.liquidityProvider with e | ata2
      · simp [hB, failResult]
      · simp only [hB] at hs ⊢
        rcases hC : createSwapTransaction env q env.walletPk
            { feeAccount := some ata1, destinationTokenAccount := some ata2 }
          with e | t
        · simp [hC, failResult]
        · simp only [hC] at hs ⊢
          rcases executeSwap_cases env t with ⟨sig, hok⟩ | ⟨e, hfail⟩
          · rw [hok] at hs
            simp at hs
          · rw [hfail]
            simp [failResult]

/-! ## Claim C3 -/

/-- **C3.** The composed swap-execution calls never raise: for every
environment and input, `executeSwap` (the source's sign-and-submit) and
`executeOrderSwap` are total functions into `TransactionResult`. The result
is `{signature, success := true, error := none}` exactly on the path where
every stage succeeded and confirmation reported no on-chain error, and
`{signature := "", success := false, error := some _}` on any failure at any
stage (decode, sign, submit, confirm, on-chain error; for the order variant
also quote, account derivation, and transaction build). -/
theorem swap_execution_never_raises (env : JupEnv) (st : SwapTransaction)
    (p : OrderSwapParams) :
    ((executeSwap env st).success = true ∧ (executeSwap env st).error = none
      ∨ ((executeSwap env st).signature = ""
          ∧ (executeSwap env st).success = false
          ∧ (executeSwap env st).error ≠ none))
    ∧ ((executeOrderSwap env p).success = true
          ∧ (executeOrderSwap env p).error = none
      ∨ ((executeOrderSwap env p).signature = ""
          ∧ (executeOrderSwap env p).success = false
          ∧ (executeOrderSwap env p).error ≠ none)) := by
  constructor
  · rcases executeSwap_cases env st with ⟨sig, hok⟩ | ⟨e, hfail⟩
    · rw [hok]
      exact Or.inl ⟨rfl, rfl⟩
    · rw [hfail]
      exact Or.inr ⟨rfl, rfl, by simp [failResult]⟩
  · cases hs : (executeOrderSwap env p).success with
    | true =>
      obtain ⟨q, sig, _, heq⟩ := executeOrderSwap_success_eq env p hs
      rw [heq]
      exact Or.inl ⟨rfl, rfl⟩
    | false =>
      obtain ⟨h1, h2⟩ := executeOrderSwap_failure_shape env p hs
      exact Or.inr ⟨h1, rfl, h2⟩

/-- Witness for C3 at a concrete transaction and order in the all-success
environment. -/
theorem swap_execution_never_raises_witness :
    ((executeSwap envAllOk
          { swapTransaction := "dGVzdA==", lastValidBlockHeight := 500 }).success
        = true
      ∧ (executeSwap envAllOk
          { swapTransaction := "dGVzdA==", lastValidBlockHeight := 500 }).error
        = none
      ∨ ((executeSwap envAllOk
            { swapTransaction := "dGVzdA==", lastValidBlockHeight := 500 }).signature
          = ""
        ∧ (executeSwap envAllOk
            { swapTransaction := "dGVzdA==", lastValidBlockHeight := 500 }).success
          = false
        ∧ (executeSwap envAllOk
            { swapTransaction := "dGVzdA==", lastValidBlockHeight := 500 }).error
          ≠ none))
    ∧ ((executeOrderSwap envAllOk (orderSwapParamsOf cfg100 samplePending)).success
          = true
        ∧ (executeOrderSwap envAllOk
            (orderSwapParamsOf cfg100 samplePending)).error = none
      ∨ ((executeOrderSwap envAllOk
            (orderSwapParamsOf cfg100 samplePending)).signature = ""
        ∧ (executeOrderSwap envAllOk
            (orderSwapParamsOf cfg100 samplePending)).success = false
        ∧ (executeOrderSwap envAllOk
            (orderSwapParamsOf cfg100 samplePending)).error ≠ none)) :=
  swap_execution_never_raises envAllOk
    { swapTransaction := "dGVzdA==", lastValidBlockHeight := 500 }
    (orderSwapParamsOf cfg100 samplePending)

/-! ## Claim C10 -/

/-- **C10.** When `executeOrder` succeeds, the executed swap was quoted and
priced by a quote fetched freshly inside `executeOrderSwap` at execution
time: the fulfilled order's `actualOutputAmount` is `parseInt` of that fresh
quote's `outAmount` (falling back to the stored `expectedOutputAmount` when
the result carries no output amount, i.e. an empty string). The quote stored
on the order at creation or last refresh plays no role: `executeOrderSwap`
receives only the token mints, amount, and liquidity provider, so any two
orders agreeing on those fields — whatever their stored quotes — produce the
identical swap result. -/
theorem executeOrder_uses_fresh_quote (om : OMConfig) (env : JupEnv)
    (st : OMState) (oid : String) (o : Order)
    (hget : mapGet st.orders oid = some o) (hp : o.status = .pending)
    (hs : (executeOrderSwap env (orderSwapParamsOf om o)).success = true) :
    (∃ q, getQuote env o.inputToken o.outputToken o.inputAmount
        env.defaultSlippage om.protocolFeeBps = .ok q ∧
      ∃ o', mapGet (executeOrder om env st oid).1.orders oid = some o' ∧
        o'.status = .fulfilled ∧
        o'.actualOutputAmount =
          (if q.outAmount = "" then some o.expectedOutputAmount
            else some (jsParseInt q.outAmount)))
    ∧ ∀ o2 : Order, o2.inputToken = o.inputToken →
        o2.outputToken = o.outputToken → o2.inputAmount = o.inputAmount →
        o2.liquidityProvider = o.liquidityProvider →
        executeOrderSwap env (orderSwapParamsOf om o2)
          = executeOrderSwap env (orderSwapParamsOf om o) := by
  constructor
  · obtain ⟨q, sig, hq, heq⟩ := executeOrderSwap_success_eq env
      (orderSwapParamsOf om o) hs
    refine ⟨q, hq, ?_⟩
    simp only [executeOrder, hget]
    rw [if_neg (not_not_intro hp)]
    rw [heq]
    simp only [persistOrders]
    refine ⟨_, mapGet_mapSet_self _ _ _, rfl, ?_⟩
    split <;> rfl
  · intro o2 h1 h2 h3 h4
    have : orderSwapParamsOf om o2 = orderSwapParamsOf om o := by
      unfold orderSwapParamsOf
      rw [h1, h2, h3, h4]
    rw [this]

/-- Witness for C10: in the all-success environment the executed order's
`actualOutputAmount` comes from the freshly fetched quote. -/
theorem executeOrder_uses_fresh_quote_witness :
    ∃ q, getQuote envAllOk samplePending.inputToken samplePending.outputToken
        samplePending.inputAmount envAllOk.defaultSlippage
        cfg100.protocolFeeBps = .ok q ∧
      ∃ o', mapGet (executeOrder cfg100 envAllOk stPending "o1").1.orders "o1"
          = some o' ∧
        o'.status = .fulfilled ∧
        o'.actualOutputAmount =
          (if q.outAmount = "" then some samplePending.expectedOutputAmount
            else some (jsParseInt q.outAmount)) :=
  (executeOrder_uses_fresh_quote cfg100 envAllOk stPending "o1" samplePending
    rfl rfl rfl).1

/-! ## Decimal-string lemmas (for the id-counter reset) -/

theorem digitChar_isDigit (k : Nat) : (digitChar k).isDigit = true := by
  unfold digitChar
  split <;> decide

theorem dval_digitChar (k : Nat) (h : k < 10) : dval (digitChar k) = k := by
  interval_cases k <;> decide

theorem isDigit_ne (c : Char) (h : c.isDigit = true) :
    c ≠ '_' ∧ c ≠ '-' ∧ c ≠ '+' := by
  refine ⟨?_, ?_, ?_⟩ <;> (rintro rfl; exact absurd h (by decide))

theorem natDigitsAux_append (fuel : Nat) :
    ∀ n acc, natDigitsAux fuel n acc = natDigitsAux fuel n [] ++ acc := by
  induction fuel with
  | zero => intro n acc; simp [natDigitsAux]
  | succ fuel ih =>
    intro n acc
    unfold natDigitsAux
    by_cases h : n < 10
    · rw [if_pos h, if_pos h]
      simp
    · rw [if_neg h, if_neg h]
      rw [ih (n / 10) (digitChar (n % 10) :: acc),
        ih (n / 10) [digitChar (n % 10)]]
      simp

theorem natDigitsAux_digits (fuel : Nat) :
    ∀ n acc, (∀ c ∈ acc, c.isDigit = true) →
      ∀ c ∈ natDigitsAux fuel n acc, c.isDigit = true := by
  induction fuel with
  | zero => intro n acc hacc; exact hacc
  | succ fuel ih =>
    intro n acc hacc c
    unfold natDigitsAux
    by_cases h : n < 10
    · rw [if_pos h]
      intro hc
      rcases List.mem_cons.mp hc with rfl | hc
      · exact digitChar_isDigit _
      · exact hacc _ hc
    · rw [if_neg h]
      intro hc
      refine ih (n / 10) (digitChar (n % 10) :: acc) ?_ c hc
      intro c' hc'
      rcases List.mem_cons.mp hc' with rfl | hc'
      · exact digitChar_isDigit _
      · exact hacc _ hc'

theorem natDigits_digits (n : Nat) : ∀ c ∈ natDigits n, c.isDigit = true :=
  natDigitsAux_digits (n + 1) n [] (by simp)

theorem valD_foldl_shift (l : List Char) :
    ∀ a : Nat, l.foldl (fun x c => x * 10 + dval c) a
      = a * 10 ^ l.length + l.foldl (fun x c => x * 10 + dval c) 0 := by
  induction l with
  | nil => intro a; simp
  | cons c l ih =>
    intro a
    simp only [List.foldl_cons, List.length_cons, Nat.zero_mul, Nat.zero_add]
    rw [ih (a * 10 + dval c), ih (dval c)]
    ring

theorem valD_append (l1 l2 : List Char) :
    valD (l1 ++ l2) = valD l1 * 10 ^ l2.length + valD l2 := by
  unfold valD
  rw [List.foldl_append]
  exact valD_foldl_shift l2 _

theorem valD_replicate_zero (k : Nat) :
    valD (List.replicate k '0') = 0 := by
  induction k with
  | zero => rfl
  | succ k ih =>
    simp only [List.replicate_succ]
    unfold valD at ih ⊢
    simpa [dval] using ih

theorem valD_padChars (l : List Char) : valD (padChars l) = valD l := by
  unfold padChars
  rw [valD_append, valD_replicate_zero]
  simp

theorem natDigitsAux_val (fuel : Nat) :
    ∀ n, n < 10 ^ fuel → valD (natDigitsAux fuel n []) = n := by
  induction fuel with
  | zero =>
    intro n h
    have : n = 0 := by simpa using h
    subst this
    rfl
  | succ fuel ih =>
    intro n h
    unfold natDigitsAux
    by_cases h10 : n < 10
    · rw [if_pos h10]
      have hmod : n % 10 = n := Nat.mod_eq_of_lt h10
      rw [hmod]
      simp [valD, dval_digitChar n h10]
    · rw [if_neg h10]
      rw [natDigitsAux_append fuel (n / 10) [digitChar (n % 10)]]
      rw [valD_append]
      have hlt : n / 10 < 10 ^ fuel := by
        rw [Nat.div_lt_iff_lt_mul (by norm_num : 0 < 10)]
        calc n < 10 ^ (fuel + 1) := h
          _ = 10 ^ fuel * 10 := by ring
      rw [ih (n / 10) hlt]
      have : valD [digitChar (n % 10)] = n % 10 := by
        simp [valD, dval_digitChar (n % 10) (Nat.mod_lt _ (by norm_num))]
      rw [this]
      simp only [List.length_singleton, pow_one]
      omega

theorem natDigits_val (n : Nat) : valD (natDigits n) = n :=
  natDigitsAux_val (n + 1) n
    (lt_of_lt_of_le (Nat.lt_pow_self (by norm_num) n)
      (Nat.pow_le_pow_right (by norm_num) (Nat.le_succ n)))

theorem natDigits_ne_nil (n : Nat) : natDigits n ≠ [] := by
  unfold natDigits
  unfold natDigitsAux
  by_cases h : n < 10
  · rw [if_pos h]
    simp
  · rw [if_neg h]
    rw [natDigitsAux_append]
    simp

theorem takeWhile_isDigit_eq_self (l : List Char)
    (h : ∀ c ∈ l, c.isDigit = true) : l.takeWhile Char.isDigit = l := by
  induction l with
  | nil => rfl
  | cons c rest ih =>
    have hc := h c (List.mem_cons_self _ _)
    simp [List.takeWhile_cons, hc,
      ih (fun c' hc' => h c' (List.mem_cons_of_mem _ hc'))]

theorem padChars_digits (l : List Char) (h : ∀ c ∈ l, c.isDigit = true) :
    ∀ c ∈ padChars l, c.isDigit = true := by
  intro c hc
  unfold padChars at hc
  rcases List.mem_append.mp hc with hc | hc
  · rw [List.eq_of_mem_replicate hc]
    decide
  · exact h c hc

theorem padChars_ne_nil (l : List Char) (h : l ≠ []) : padChars l ≠ [] := by
  unfold padChars
  intro he
  exact h (List.append_eq_nil.mp he).2

theorem jsParseInt_digits (l : List Char) (hne : l ≠ [])
    (hd : ∀ c ∈ l, c.isDigit = true) :
    jsParseInt (String.mk l) = some ((valD l : Nat) : Int) := by
  rcases l with _ | ⟨c, rest⟩
  · exact absurd rfl hne
  · have hc := hd c (List.mem_cons_self _ _)
    obtain ⟨_, h2, h3⟩ := isDigit_ne c hc
    have htl : (String.mk (c :: rest)).toList = c :: rest := rfl
    simp only [jsParseInt, htl]
    rw [if_neg h2, if_neg h3]
    simp only [parseDigitsVal]
    rw [if_pos hc, takeWhile_isDigit_eq_self _ hd]
    rfl

theorem jsParseInt_padChars_natDigits (n : Nat) :
    jsParseInt (String.mk (padChars (natDigits n))) = some (n : Int) := by
  rw [jsParseInt_digits _ (padChars_ne_nil _ (natDigits_ne_nil n))
    (padChars_digits _ (natDigits_digits n))]
  rw [valD_padChars, natDigits_val]

/-! ## Underscore-split lemmas -/

theorem splitUC_no_underscore (l : List Char) (h : ∀ c ∈ l, c ≠ '_') :
    splitUC l = [l] := by
  induction l with
  | nil => rfl
  | cons c rest ih =>
    unfold splitUC
    rw [if_neg (h c (List.mem_cons_self _ _))]
    rw [ih (fun c' hc' => h c' (List.mem_cons_of_mem _ hc'))]

theorem splitUC_append (l1 l2 : List Char) (h : ∀ c ∈ l1, c ≠ '_') :
    splitUC (l1 ++ '_' :: l2) = l1 :: splitUC l2 := by
  induction l1 with
  | nil => simp [splitUC]
  | cons c rest ih =>
    simp only [List.cons_append]
    conv_lhs => rw [splitUC]
    rw [if_neg (h c (List.mem_cons_self _ _))]
    rw [ih (fun c' hc' => h c' (List.mem_cons_of_mem _ hc'))]

theorem suffixVal_genOrderId (now c : Nat) :
    suffixVal (genOrderId now c) = (c : Int) := by
  have hlist : (genOrderId now c).toList
      = "order".toList ++ '_' :: (natDigits now ++ '_' :: padChars (natDigits c)) := by
    show ("order_" ++ natToString now ++ "_" ++ padStart4 (natToString c)).toList = _
    have : ("order_" ++ natToString now ++ "_" ++ padStart4 (natToString c)).toList
        = "order_".toList ++ (natToString now).toList ++ "_".toList
          ++ (padStart4 (natToString c)).toList := rfl
    rw [this]
    have h1 : (natToString now).toList = natDigits now := rfl
    have h2 : (padStart4 (natToString c)).toList = padChars (natDigits c) := rfl
    rw [h1, h2]
    simp
  have hnow : ∀ ch ∈ natDigits now, ch ≠ '_' :=
    fun ch hch => (isDigit_ne ch (natDigits_digits now ch hch)).1
  have hpad : ∀ ch ∈ padChars (natDigits c), ch ≠ '_' :=
    fun ch hch =>
      (isDigit_ne ch (padChars_digits _ (natDigits_digits c) ch hch)).1
  unfold suffixVal splitUnderscore
  rw [hlist]
  rw [splitUC_append _ _ (by decide)]
  rw [splitUC_append _ _ hnow]
  rw [splitUC_no_underscore _ hpad]
  simp only [List.map_cons, List.map_nil, List.get?]
  rw [jsParseInt_padChars_natDigits]
  rfl

/-! ## Maximum-suffix lemmas -/

theorem le_foldl_max (l : List String) :
    ∀ a : Int, a ≤ l.foldl (fun x k => max x (suffixVal k)) a := by
  induction l with
  | nil => intro a; simp
  | cons s rest ih =>
    intro a
    simp only [List.foldl_cons]
    exact le_trans (le_max_left _ _) (ih _)

theorem suffixVal_le_foldl_max (l : List String) :
    ∀ a : Int, ∀ k ∈ l, suffixVal k ≤ l.foldl (fun x s => max x (suffixVal s)) a := by
  induction l with
  | nil => intro a k hk; cases hk
  | cons s rest ih =>
    intro a k hk
    rcases List.mem_cons.mp hk with rfl | hk
    · simp only [List.foldl_cons]
      exact le_trans (le_max_right _ _) (le_foldl_max rest _)
    · simp only [List.foldl_cons]
      exact ih _ k hk

theorem suffixVal_le_maxSuffix (l : List String) (k : String) (hk : k ∈ l) :
    suffixVal k ≤ maxSuffix l :=
  suffixVal_le_foldl_max l 0 k hk

theorem maxSuffix_nonneg (l : List String) : 0 ≤ maxSuffix l :=
  le_foldl_max l 0

/-! ## Claim C7 -/

/-- Counterexample to C7 as stated: after loading a persisted collection
whose single id has numeric suffix 5, the counter is 5 — the highest suffix
itself, not one greater than it (`generateOrderId` pre-increments the counter
before use, which is what actually prevents collisions). -/
theorem loadPersistedOrders_counter_cex :
    maxSuffix ((jsMapOfList [("order_1_0005", samplePending)]).map Prod.fst) = 5
    ∧ (loadPersistedOrders
        (some [("order_1_0005", samplePending)])).orderIdCounter ≠ 5 + 1 := by
  constructor
  · decide
  · decide

/-- **C7 (amended).** On startup, `loadPersistedOrders` resets the order-id
counter to the highest numeric suffix observed among existing order ids (not
one greater); since `generateOrderId` increments the counter before building
the id, the first id generated after a restart carries suffix one greater
than every observed suffix, so it collides with no existing id. -/
theorem loadPersistedOrders_counter_fresh (stored : OrderMap) (now : Nat) :
    (loadPersistedOrders (some stored)).orderIdCounter
        = (maxSuffix ((jsMapOfList stored).map Prod.fst)).toNat
    ∧ ∀ k ∈ (loadPersistedOrders (some stored)).orders.map Prod.fst,
        genOrderId now
          ((loadPersistedOrders (some stored)).orderIdCounter + 1) ≠ k := by
  constructor
  · rfl
  · intro k hk heq
    have hmem : k ∈ (jsMapOfList stored).map Prod.fst := hk
    have hle : suffixVal k ≤ maxSuffix ((jsMapOfList stored).map Prod.fst) :=
      suffixVal_le_maxSuffix _ _ hmem
    have hnn : 0 ≤ maxSuffix ((jsMapOfList stored).map Prod.fst) :=
      maxSuffix_nonneg _
    have hsv := suffixVal_genOrderId now
      ((loadPersistedOrders (some stored)).orderIdCounter + 1)
    rw [heq] at hsv
    have hcounter : (loadPersistedOrders (some stored)).orderIdCounter
        = (maxSuffix ((jsMapOfList stored).map Prod.fst)).toNat := rfl
    rw [hcounter] at hsv
    have htn : ((maxSuffix ((jsMapOfList stored).map Prod.fst)).toNat : Int)
        = maxSuffix ((jsMapOfList stored).map Prod.fst) :=
      Int.toNat_of_nonneg hnn
    push_cast at hsv
    omega

/-- Witness for the amended C7: after loading a collection with suffix 2, the
next generated id is fresh. -/
theorem loadPersistedOrders_counter_fresh_witness :
    genOrderId 9
        ((loadPersistedOrders
          (some [("order_7_0002", sampleFulfilled)])).orderIdCounter + 1)
      ∉ (loadPersistedOrders
          (some [("order_7_0002", sampleFulfilled)])).orders.map Prod.fst :=
  fun hmem =>
    (loadPersistedOrders_counter_fresh [("order_7_0002", sampleFulfilled)] 9).2
      _ hmem rfl

/-! ## Claim C1 -/

/-- Characterization of a successful `createOrder`: the stored order is
pending and carries the unrounded rational fee. -/
theorem createOrder_ok_fields (om : OMConfig) (env : JupEnv) (st : OMState)
    (params : OrderCreationParams) (userPk : String) (now : Nat)
    (st' : OMState) (oid : String)
    (h : createOrder om env st params userPk now = (st', .ok oid)) :
    ∃ o, mapGet st'.orders oid = some o ∧ o.status = .pending ∧
      o.protocolFee
        = ((params.inputAmount : ℚ) * (om.protocolFeeBps : ℚ)) / 10000 := by
  unfold createOrder at h
  rcases hv : validateOrderParams env params with _ | e
  · simp only [hv] at h
    by_cases ht : om.treasuryWallet = ""
    · rw [if_pos ht] at h
      exact absurd (congrArg Prod.snd h) (by simp)
    · rw [if_neg ht] at h
      rcases hq : getQuote env params.inputToken params.outputToken
          params.inputAmount 50 om.protocolFeeBps with e | q
      · simp only [hq] at h
        exact absurd (congrArg Prod.snd h) (by simp)
      · simp only [hq] at h
        injection h with h1 h2
        subst h1
        injection h2 with h2
        subst h2
        simp only [persistOrders]
        exact ⟨_, mapGet_mapSet_self _ _ _, rfl, rfl⟩
  · simp only [hv] at h
    exact absurd (congrArg Prod.snd h) (by simp)

/-- Counterexample to C1 as stated: `inputAmount = 3` with
`protocolFeeBps = 100` is a valid set of creation parameters (the call
succeeds), yet the stored `protocolFee` is the unrounded JS quotient
`3 * 100 / 10000 = 0.03`, not `floor(3 * 100 / 10000) = 0` — the source
divides with `/`; it never takes a floor and does not use integer arithmetic
for the fee. -/
theorem createOrder_protocolFee_cex :
    (createOrder cfg100 envAllOk stEmpty paramsThree "alice" 5).2
        = .ok "order_5_0001"
    ∧ (mapGet (createOrder cfg100 envAllOk stEmpty paramsThree
          "alice" 5).1.orders "order_5_0001").map Order.protocolFee
        = some ((3 : ℚ) / 100)
    ∧ ((3 : ℚ) / 100) ≠ (((3 * 100 / 10000 : ℤ)) : ℚ) := by
  obtain ⟨o, h1, _, h3⟩ := createOrder_ok_fields cfg100 envAllOk stEmpty
    paramsThree "alice" 5
    (createOrder cfg100 envAllOk stEmpty paramsThree "alice" 5).1
    "order_5_0001" rfl
  refine ⟨rfl, ?_, by norm_num⟩
  rw [h1, Option.map_some']
  rw [h3]
  norm_num [paramsThree, paramsMillion, cfg100]

/-- **C1 (amended).** For every valid set of creation parameters (whenever
`createOrder` returns an id rather than raising), the stored order is
`pending` and its `protocolFee` equals the exact (unrounded) quotient
`inputAmount * protocolFeeBps / 10000` of JS number division; whenever
`10000` divides `inputAmount * protocolFeeBps` this coincides with the floor,
and in particular `inputAmount = 1_000_000` with `protocolFeeBps = 100`
yields `protocolFee = 10_000`. -/
theorem createOrder_protocolFee (om : OMConfig) (env : JupEnv) (st : OMState)
    (params : OrderCreationParams) (userPk : String) (now : Nat)
    (st' : OMState) (oid : String)
    (h : createOrder om env st params userPk now = (st', .ok oid)) :
    ∃ o, mapGet st'.orders oid = some o ∧ o.status = .pending ∧
      o.protocolFee
        = ((params.inputAmount : ℚ) * (om.protocolFeeBps : ℚ)) / 10000 :=
  createOrder_ok_fields om env st params userPk now st' oid h

/-- Witness for the amended C1: the spec's own scenario —
`inputAmount = 1_000_000`, `protocolFeeBps = 100` — stores a pending order
with `protocolFee = 10_000`. -/
theorem createOrder_protocolFee_witness :
    ∃ o, mapGet (createOrder cfg100 envAllOk stEmpty paramsMillion
        "alice" 5).1.orders "order_5_0001" = some o ∧
      o.status = .pending ∧ o.protocolFee = 10000 := by
  obtain ⟨o, h1, h2, h3⟩ := createOrder_protocolFee cfg100 envAllOk stEmpty
    paramsMillion "alice" 5
    (createOrder cfg100 envAllOk stEmpty paramsMillion "alice" 5).1
    "order_5_0001" rfl
  refine ⟨o, h1, h2, ?_⟩
  rw [h3]
  norm_num [paramsMillion, cfg100]

end Aboki
